import Mathlib

/-!
Shallow embedding of the chefdeck-app inventory subsystem and its
multi-tenant REST backend, together with theorems checking the
natural-language specification against the code.

Conventions of the embedding:
* MongoDB collections are lists of documents in insertion order;
  `find`/`findOne` filters preserve that order exactly as Mongo does.
* JavaScript numbers that carry item quantities are modelled as `ℚ`
  (the code only compares and stores them, it never rounds);
  timestamps (`Date.now()` values) are modelled as `ℤ`.
* `undefined`-able fields are `Option`s.  A field such as `lockedAt`
  only ever receives `Date.now()` (a positive number), so its JS
  truthiness test is modelled as `Option.isSome`.
* A mongoose document mutation followed by `save()` is modelled by
  replacing the first matching document in the collection list
  (`findOne` returns the first match, `save` writes that document back).
-/

namespace ChefDeck

/-- Generic first-match update: the mongoose pattern of mutating the
document returned by a `find`/`findOne` and leaving the rest alone. -/
def updateFirst (p : α → Bool) (f : α → α) : List α → List α
  | [] => []
  | x :: xs => if p x then f x :: xs else x :: updateFirst p f xs

/-- Generic upsert with replacement semantics: `findOneAndUpdate(filter,
fullBody, {upsert:true})` where the update carries every schema field. -/
def upsertReplace (p : α → Bool) (doc : α) : List α → List α
  | [] => [doc]
  | x :: xs => if p x then doc :: xs else x :: upsertReplace p doc xs

/-- `deleteOne(filter)`: removes the first matching document. -/
def eraseFirst (p : α → Bool) : List α → List α
  | [] => []
  | x :: xs => if p x then xs else x :: eraseFirst p xs

/-- `{id, name}` of a Telegram user as stored in `sheet.lockedBy`. -/
structure LockInfo where
  id : Int
  name : String
deriving DecidableEq, Repr

/-- An inventory item inside a sheet (`types.InventoryItem`). -/
structure InventoryItem where
  id : String
  name : String
  unit : String
  code : String
  actual : Option ℚ
deriving DecidableEq, Repr

/-- An inventory sheet (`types.InventorySheet`). -/
structure InventorySheet where
  id : String
  title : String
  items : List InventoryItem
  status : String
  lockedBy : Option LockInfo
  lockedAt : Option Int
deriving DecidableEq, Repr

/-- An inventory cycle document (`inventoryCycleSchema`). -/
structure InventoryCycle where
  botId : String
  id : String
  date : Int
  sheets : List InventorySheet
  isFinalized : Bool
  createdBy : String
deriving DecidableEq, Repr

/-- `InventoryCycle.findOne({ id: cycleId, botId })`. -/
def findCycle (db : List InventoryCycle) (cycleId botId : String) :
    Option InventoryCycle :=
  db.find? (fun c => c.id == cycleId && c.botId == botId)

/-- `cycle.sheets.find(s => s.id === sheetId)`. -/
def findSheet (sheets : List InventorySheet) (sheetId : String) :
    Option InventorySheet :=
  sheets.find? (fun s => s.id == sheetId)

/-- Mutation `sheet.lockedBy = lb` on the first sheet found by id. -/
def setLockedByFirst (sheets : List InventorySheet) (sheetId : String)
    (lb : Option LockInfo) : List InventorySheet :=
  updateFirst (fun s => s.id == sheetId) (fun s => { s with lockedBy := lb }) sheets

/-- `cycle.save()`: writes the (mutated) document found by
`findOne({id, botId})` back over the first matching stored document. -/
def saveCycle (db : List InventoryCycle) (cycleId botId : String)
    (c : InventoryCycle) : List InventoryCycle :=
  updateFirst (fun d => d.id == cycleId && d.botId == botId) (fun _ => c) db

/-- Outcome of `POST /api/inventory/lock`. -/
inductive LockResult where
  /-- `res.json({ success: true })` -/
  | ok : LockResult
  /-- `res.json({ success: false, lockedBy: sheet.lockedBy })` -/
  | conflict (holder : LockInfo) : LockResult
  /-- `res.status(404).json({ success: false })` -/
  | notFound : LockResult
  /-- the `cycle.sheets` access threw on a null cycle, caught as 500 -/
  | serverError : LockResult
deriving DecidableEq, Repr

/-- Handler of `POST /api/inventory/lock` (server/index.js):
`findOne` the cycle, `find` the sheet, refuse if locked by someone
else, otherwise write the requester into `lockedBy` and save. -/
def lockHandler (db : List InventoryCycle) (botId cycleId sheetId : String)
    (user : LockInfo) : LockResult × List InventoryCycle :=
  match findCycle db cycleId botId with
  | none => (.serverError, db)
  | some cycle =>
    match findSheet cycle.sheets sheetId with
    | none => (.notFound, db)
    | some sheet =>
      match sheet.lockedBy with
      | some holder =>
        if holder.id ≠ user.id then (.conflict holder, db)
        else (.ok, saveCycle db cycleId botId
          { cycle with sheets := setLockedByFirst cycle.sheets sheetId (some user) })
      | none => (.ok, saveCycle db cycleId botId
          { cycle with sheets := setLockedByFirst cycle.sheets sheetId (some user) })

/-- Handler of `POST /api/inventory/unlock` (server/index.js): clears
`lockedBy` when cycle and sheet exist, always answers `success:true`. -/
def unlockHandler (db : List InventoryCycle) (botId cycleId sheetId : String) :
    Bool × List InventoryCycle :=
  match findCycle db cycleId botId with
  | none => (true, db)
  | some cycle =>
    match findSheet cycle.sheets sheetId with
    | none => (true, db)
    | some _ => (true, saveCycle db cycleId botId
        { cycle with sheets := setLockedByFirst cycle.sheets sheetId none })

section UpdateFirstLemmas

variable {α : Type _} {p : α → Bool} {f : α → α}

theorem updateFirst_of_find?_eq_none {l : List α} (h : l.find? p = none) :
    updateFirst p f l = l := by
  induction l with
  | nil => rfl
  | cons x xs ih =>
    rw [List.find?_cons] at h
    cases hx : p x with
    | true => simp [hx] at h
    | false =>
      rw [hx] at h
      simp [updateFirst, hx, ih h]

theorem find?_updateFirst_eq_set {l : List α} {x : α} (h : l.find? p = some x) :
    ∃ i, ∃ hi : i < l.length, l.get ⟨i, hi⟩ = x ∧
      updateFirst p f l = l.set i (f x) := by
  induction l with
  | nil => simp [List.find?] at h
  | cons y ys ih =>
    rw [List.find?_cons] at h
    cases hy : p y with
    | true =>
      rw [hy] at h
      simp only [Option.some.injEq] at h
      subst h
      exact ⟨0, by simp, rfl, by simp [updateFirst, hy]⟩
    | false =>
      rw [hy] at h
      obtain ⟨i, hi, hget, hupd⟩ := ih h
      exact ⟨i + 1, by simpa using Nat.succ_lt_succ hi, hget,
        by simp [updateFirst, hy, hupd]⟩

theorem find?_updateFirst_self {l : List α} {x : α}
    (h : l.find? p = some x) (hf : ∀ y, p y = true → p (f y) = true) :
    (updateFirst p f l).find? p = some (f x) := by
  induction l with
  | nil => simp [List.find?] at h
  | cons y ys ih =>
    rw [List.find?_cons] at h
    cases hy : p y with
    | true =>
      rw [hy] at h
      simp only [Option.some.injEq] at h
      subst h
      simp [updateFirst, hy, List.find?_cons, hf y hy]
    | false =>
      rw [hy] at h
      simp [updateFirst, hy, List.find?_cons, ih h]

end UpdateFirstLemmas

/-!  ### C1: the lock endpoint, cycle present  -/

/-- **C1.**  For a lock request whose cycle exists for the tenant:
a sheet held by a different user answers `{success:false, lockedBy}` and
leaves the store unchanged; a free sheet, or one held by the requester,
gets the requester written into `lockedBy`, the cycle saved, and
`{success:true}`; a missing sheet answers 404 `{success:false}`. -/
theorem lock_endpoint_cases (db : List InventoryCycle)
    (botId cycleId sheetId : String) (user : LockInfo) (c : InventoryCycle)
    (hc : findCycle db cycleId botId = some c) :
    (∀ s holder, findSheet c.sheets sheetId = some s →
      s.lockedBy = some holder → holder.id ≠ user.id →
      lockHandler db botId cycleId sheetId user = (.conflict holder, db)) ∧
    (∀ s, findSheet c.sheets sheetId = some s →
      (s.lockedBy = none ∨ ∃ h, s.lockedBy = some h ∧ h.id = user.id) →
      (lockHandler db botId cycleId sheetId user).1 = .ok ∧
      ∃ c', findCycle (lockHandler db botId cycleId sheetId user).2 cycleId botId
              = some c' ∧
        findSheet c'.sheets sheetId = some { s with lockedBy := some user }) ∧
    (findSheet c.sheets sheetId = none →
      lockHandler db botId cycleId sheetId user = (.notFound, db)) := by
  refine ⟨?_, ?_, ?_⟩
  · intro s holder hs hlb hne
    simp [lockHandler, hc, hs, hlb, hne]
  · intro s hs hfree
    have hpc := List.find?_some
      (show List.find? (fun d => d.id == cycleId && d.botId == botId) db
          = some c from hc)
    have hsave : findCycle
        (saveCycle db cycleId botId
          { c with sheets := setLockedByFirst c.sheets sheetId (some user) })
        cycleId botId
        = some { c with sheets := setLockedByFirst c.sheets sheetId (some user) } := by
      unfold findCycle saveCycle
      exact find?_updateFirst_self hc (fun y _ => hpc)
    have hsheet : findSheet (setLockedByFirst c.sheets sheetId (some user)) sheetId
        = some { s with lockedBy := some user } := by
      unfold findSheet setLockedByFirst
      exact find?_updateFirst_self hs (fun y hy => hy)
    have hres : lockHandler db botId cycleId sheetId user =
        (.ok, saveCycle db cycleId botId
          { c with sheets := setLockedByFirst c.sheets sheetId (some user) }) := by
      rcases hfree with hnone | ⟨h, hsome, hid⟩
      · simp [lockHandler, hc, hs, hnone]
      · simp [lockHandler, hc, hs, hsome, hid]
    rw [hres]
    exact ⟨rfl, _, hsave, hsheet⟩
  · intro hs
    simp [lockHandler, hc, hs]

/-- Witness for `lock_endpoint_cases` on a one-cycle store: user 2 is
refused while user 1 holds the sheet, and the store is untouched. -/
theorem lock_endpoint_cases_witness :
    lockHandler
      [{ botId := "b", id := "c1", date := 0,
         sheets := [{ id := "s1", title := "Kitchen", items := [],
                      status := "active",
                      lockedBy := some { id := 1, name := "A" },
                      lockedAt := none }],
         isFinalized := false, createdBy := "A" }]
      "b" "c1" "s1" { id := 2, name := "B" }
    = (.conflict { id := 1, name := "A" },
       [{ botId := "b", id := "c1", date := 0,
          sheets := [{ id := "s1", title := "Kitchen", items := [],
                       status := "active",
                       lockedBy := some { id := 1, name := "A" },
                       lockedAt := none }],
          isFinalized := false, createdBy := "A" }]) := by
  exact (lock_endpoint_cases
      [{ botId := "b", id := "c1", date := 0,
         sheets := [{ id := "s1", title := "Kitchen", items := [],
                      status := "active",
                      lockedBy := some { id := 1, name := "A" },
                      lockedAt := none }],
         isFinalized := false, createdBy := "A" }]
      "b" "c1" "s1" { id := 2, name := "B" }
      { botId := "b", id := "c1", date := 0,
        sheets := [{ id := "s1", title := "Kitchen", items := [],
                     status := "active",
                     lockedBy := some { id := 1, name := "A" },
                     lockedAt := none }],
        isFinalized := false, createdBy := "A" }
      rfl).1
    { id := "s1", title := "Kitchen", items := [], status := "active",
      lockedBy := some { id := 1, name := "A" }, lockedAt := none }
    { id := 1, name := "A" } rfl rfl (by decide)

/-!  ### C8: the unlock endpoint never reports failure  -/

/-- **C8.**  `POST /api/inventory/unlock` answers `success:true` on every
non-throwing request, including a missing cycle or missing sheet, and in
those not-found cases leaves the store unchanged; only when cycle and
sheet both exist is the sheet's `lockedBy` cleared.  By contrast the lock
endpoint answers 500 on a missing cycle and 404 on a missing sheet. -/
theorem unlock_always_succeeds (db : List InventoryCycle)
    (botId cycleId sheetId : String) (user : LockInfo) :
    (unlockHandler db botId cycleId sheetId).1 = true ∧
    (findCycle db cycleId botId = none →
      (unlockHandler db botId cycleId sheetId).2 = db ∧
      lockHandler db botId cycleId sheetId user = (.serverError, db)) ∧
    (∀ c, findCycle db cycleId botId = some c →
      findSheet c.sheets sheetId = none →
      (unlockHandler db botId cycleId sheetId).2 = db ∧
      lockHandler db botId cycleId sheetId user = (.notFound, db)) ∧
    (∀ c s, findCycle db cycleId botId = some c →
      findSheet c.sheets sheetId = some s →
      ∃ c', findCycle (unlockHandler db botId cycleId sheetId).2 cycleId botId
              = some c' ∧
        findSheet c'.sheets sheetId = some { s with lockedBy := none }) := by
  refine ⟨?_, ?_, ?_, ?_⟩
  · cases hc : findCycle db cycleId botId with
    | none => simp [unlockHandler, hc]
    | some c =>
      cases hs : findSheet c.sheets sheetId with
      | none => simp [unlockHandler, hc, hs]
      | some s => simp [unlockHandler, hc, hs]
  · intro hc
    exact ⟨by simp [unlockHandler, hc], by simp [lockHandler, hc]⟩
  · intro c hc hs
    exact ⟨by simp [unlockHandler, hc, hs], by simp [lockHandler, hc, hs]⟩
  · intro c s hc hs
    have hpc := List.find?_some
      (show List.find? (fun d => d.id == cycleId && d.botId == botId) db
          = some c from hc)
    have hstate : (unlockHandler db botId cycleId sheetId).2 =
        saveCycle db cycleId botId
          { c with sheets := setLockedByFirst c.sheets sheetId none } := by
      simp [unlockHandler, hc, hs]
    refine ⟨{ c with sheets := setLockedByFirst c.sheets sheetId none },
      ?_, ?_⟩
    · rw [hstate]
      unfold findCycle saveCycle
      exact find?_updateFirst_self hc (fun y _ => hpc)
    · unfold findSheet setLockedByFirst
      exact find?_updateFirst_self hs (fun y hy => hy)

/-- Witness for `unlock_always_succeeds`: unlocking a held sheet answers
`true` and clears `lockedBy`; unlocking a nonexistent cycle also answers
`true` and leaves the empty store unchanged. -/
theorem unlock_always_succeeds_witness :
    ((unlockHandler [] "b" "nope" "s").1 = true ∧
      (unlockHandler [] "b" "nope" "s").2 = []) ∧
    ∃ c', findCycle
        (unlockHandler
          [{ botId := "b", id := "c1", date := 0,
             sheets := [{ id := "s1", title := "Bar", items := [],
                          status := "active",
                          lockedBy := some { id := 1, name := "A" },
                          lockedAt := some 5 }],
             isFinalized := false, createdBy := "A" }]
          "b" "c1" "s1").2 "c1" "b" = some c' ∧
      findSheet c'.sheets "s1"
        = some { id := "s1", title := "Bar", items := [],
                 status := "active", lockedBy := none, lockedAt := some 5 } := by
  constructor
  · have h := unlock_always_succeeds [] "b" "nope" "s" { id := 0, name := "" }
    exact ⟨h.1, (h.2.1 rfl).1⟩
  · have h := unlock_always_succeeds
      [{ botId := "b", id := "c1", date := 0,
         sheets := [{ id := "s1", title := "Bar", items := [],
                      status := "active",
                      lockedBy := some { id := 1, name := "A" },
                      lockedAt := some 5 }],
         isFinalized := false, createdBy := "A" }]
      "b" "c1" "s1" { id := 0, name := "" }
    exact h.2.2.2
      { botId := "b", id := "c1", date := 0,
        sheets := [{ id := "s1", title := "Bar", items := [],
                     status := "active",
                     lockedBy := some { id := 1, name := "A" },
                     lockedAt := some 5 }],
        isFinalized := false, createdBy := "A" }
      { id := "s1", title := "Bar", items := [], status := "active",
        lockedBy := some { id := 1, name := "A" }, lockedAt := some 5 }
      rfl rfl

/-!  ### Client-side constants and sheet-opening guard (Inventory.tsx)  -/

/-- `30 * 60 * 1000` from `handleOpenSheet`. -/
def staleLockMs : Int := 30 * 60 * 1000

/-- `setInterval(loadDataSilent, 8000)`. -/
def pollIntervalMs : Int := 8000

/-- `setTimeout(() => { syncLockRef.current = false; }, 3000)`. -/
def syncLockMs : Int := 3000

/-- Guard of `handleOpenSheet`: the open is blocked (early `return` with
the "Лист занят" toast) iff the sheet is locked by a different user and
`lockedAt` is set with `now - lockedAt < 30min`.  (`lockedAt` only ever
holds `Date.now()`, positive, so its truthiness is `isSome`.) -/
def clientBlocksOpen (s : InventorySheet) (uid now : Int) : Bool :=
  match s.lockedBy with
  | some holder =>
    if holder.id ≠ uid then
      match s.lockedAt with
      | some t => now - t < staleLockMs
      | none => false
    else false
  | none => false

/-- `findOne` followed by `save` on the first match writes position `k`. -/
theorem saveCycle_set {db : List InventoryCycle} {cycleId botId : String}
    {c : InventoryCycle} (hc : findCycle db cycleId botId = some c)
    (c' : InventoryCycle) :
    ∃ k, ∃ hk : k < db.length, db.get ⟨k, hk⟩ = c ∧
      saveCycle db cycleId botId c' = db.set k c' :=
  find?_updateFirst_eq_set (f := fun _ => c') hc

/-- Setting `lockedBy` on the sheet found by id rewrites one position. -/
theorem setLockedByFirst_set {sheets : List InventorySheet} {sheetId : String}
    {s : InventorySheet} (hs : findSheet sheets sheetId = some s)
    (lb : Option LockInfo) :
    ∃ i, ∃ hi : i < sheets.length, sheets.get ⟨i, hi⟩ = s ∧
      setLockedByFirst sheets sheetId lb = sheets.set i { s with lockedBy := lb } := by
  unfold setLockedByFirst
  exact find?_updateFirst_eq_set hs

/-!  ### C9: a successful lock writes only `lockedBy`  -/

/-- **C9.**  A successful lock rewrites the store at exactly one cycle
position `k` and one sheet position `i`, and the rewritten sheet is the
old one with only `lockedBy` replaced — so `lockedAt` is never written,
and items, other sheets and other cycles are untouched.  Consequently a
sheet locked solely through this endpoint still has `lockedAt = none`,
and the client's staleness gate (which blocks only when `lockedAt` is
set) does not block another user from opening it. -/
theorem lock_success_frame (db : List InventoryCycle)
    (botId cycleId sheetId : String) (user : LockInfo)
    (h : (lockHandler db botId cycleId sheetId user).1 = .ok) :
    (∃ k, ∃ hk : k < db.length, ∃ i,
      ∃ hi : i < (db.get ⟨k, hk⟩).sheets.length,
      (db.get ⟨k, hk⟩).id = cycleId ∧ (db.get ⟨k, hk⟩).botId = botId ∧
      ((db.get ⟨k, hk⟩).sheets.get ⟨i, hi⟩).id = sheetId ∧
      (lockHandler db botId cycleId sheetId user).2
        = db.set k { db.get ⟨k, hk⟩ with
            sheets := (db.get ⟨k, hk⟩).sheets.set i
              { (db.get ⟨k, hk⟩).sheets.get ⟨i, hi⟩ with
                  lockedBy := some user } }) ∧
    (∀ s : InventorySheet, ∀ uid now : Int,
      s.lockedAt = none → clientBlocksOpen s uid now = false) := by
  constructor
  · cases hc : findCycle db cycleId botId with
    | none => simp [lockHandler, hc] at h
    | some c =>
      cases hs : findSheet c.sheets sheetId with
      | none => simp [lockHandler, hc, hs] at h
      | some s =>
        have hcid := List.find?_some
          (show List.find? (fun d => d.id == cycleId && d.botId == botId) db
              = some c from hc)
        have hsid := List.find?_some
          (show List.find? (fun t => t.id == sheetId) c.sheets = some s from hs)
        simp only [Bool.and_eq_true, beq_iff_eq] at hcid hsid
        have hstate : (lockHandler db botId cycleId sheetId user).2 =
            saveCycle db cycleId botId
              { c with sheets := setLockedByFirst c.sheets sheetId (some user) } := by
          cases hlb : s.lockedBy with
          | none => simp [lockHandler, hc, hs, hlb]
          | some holder =>
            by_cases hid : holder.id = user.id
            · simp [lockHandler, hc, hs, hlb, hid]
            · simp [lockHandler, hc, hs, hlb, hid] at h
        obtain ⟨i, hi, hgets, hsets⟩ := setLockedByFirst_set hs (some user)
        obtain ⟨k, hk, hgetc, hsetc⟩ := saveCycle_set hc
          { c with sheets := setLockedByFirst c.sheets sheetId (some user) }
        subst hgetc
        subst hgets
        exact ⟨k, hk, i, hi, hcid.1, hcid.2, hsid,
          by rw [hstate, hsetc, hsets]⟩
  · intro s uid now hnone
    cases hlb : s.lockedBy with
    | none => simp [clientBlocksOpen, hlb]
    | some holder => simp [clientBlocksOpen, hlb, hnone]

/-- Witness for `lock_success_frame`: after user 7 locks the free sheet
of a concrete store, the client gate does not block user 9 from opening
a sheet whose `lockedAt` is unset. -/
theorem lock_success_frame_witness :
    clientBlocksOpen
      { id := "s1", title := "Kitchen", items := [], status := "active",
        lockedBy := some { id := 7, name := "G" }, lockedAt := none }
      9 123456789 = false :=
  (lock_success_frame
    [{ botId := "b", id := "c1", date := 0,
       sheets := [{ id := "s1", title := "Kitchen", items := [],
                    status := "active", lockedBy := none, lockedAt := none }],
       isFinalized := false, createdBy := "A" }]
    "b" "c1" "s1" { id := 7, name := "G" } (by decide)).2
    { id := "s1", title := "Kitchen", items := [], status := "active",
      lockedBy := some { id := 7, name := "G" }, lockedAt := none }
    9 123456789 rfl

/-!  ### C2: lock expiry is a client-side heuristic only  -/

/-- Rewriting every `lockedAt` field of a sheet (nothing else). -/
def mapSheetLockedAt (f : Option Int → Option Int) (s : InventorySheet) :
    InventorySheet :=
  { s with lockedAt := f s.lockedAt }

/-- Rewriting every `lockedAt` field inside a cycle. -/
def mapCycleLockedAt (f : Option Int → Option Int) (c : InventoryCycle) :
    InventoryCycle :=
  { c with sheets := c.sheets.map (mapSheetLockedAt f) }

/-- Rewriting every `lockedAt` field in the whole store. -/
def mapDbLockedAt (f : Option Int → Option Int) (db : List InventoryCycle) :
    List InventoryCycle :=
  db.map (mapCycleLockedAt f)

theorem updateFirst_map_comm {p : α → Bool} {f₁ f₂ g : α → α} (l : List α)
    (hp : ∀ y, p (g y) = p y) (hfg : ∀ y, f₂ (g y) = g (f₁ y)) :
    updateFirst p f₂ (l.map g) = (updateFirst p f₁ l).map g := by
  induction l with
  | nil => rfl
  | cons x xs ih =>
    simp only [List.map_cons, updateFirst, hp]
    cases hx : p x with
    | true => simp [hx, hfg]
    | false => simp [hx, ih]

theorem findCycle_mapLockedAt (f : Option Int → Option Int)
    (db : List InventoryCycle) (cycleId botId : String) :
    findCycle (mapDbLockedAt f db) cycleId botId
      = (findCycle db cycleId botId).map (mapCycleLockedAt f) := by
  unfold findCycle mapDbLockedAt
  rw [List.find?_map]
  rfl

theorem findSheet_mapLockedAt (f : Option Int → Option Int)
    (sheets : List InventorySheet) (sheetId : String) :
    findSheet (sheets.map (mapSheetLockedAt f)) sheetId
      = (findSheet sheets sheetId).map (mapSheetLockedAt f) := by
  unfold findSheet
  rw [List.find?_map]
  rfl

theorem setLockedByFirst_mapLockedAt (f : Option Int → Option Int)
    (sheets : List InventorySheet) (sheetId : String) (lb : Option LockInfo) :
    setLockedByFirst (sheets.map (mapSheetLockedAt f)) sheetId lb
      = (setLockedByFirst sheets sheetId lb).map (mapSheetLockedAt f) :=
  updateFirst_map_comm sheets (fun _ => rfl) (fun _ => rfl)

theorem saveCycle_mapLockedAt (f : Option Int → Option Int)
    (db : List InventoryCycle) (cycleId botId : String) (c' : InventoryCycle) :
    saveCycle (mapDbLockedAt f db) cycleId botId (mapCycleLockedAt f c')
      = mapDbLockedAt f (saveCycle db cycleId botId c') := by
  unfold saveCycle mapDbLockedAt
  exact updateFirst_map_comm db (fun _ => rfl) (fun _ => rfl)

/-- **C2.**  Lock expiry exists only in the client: `handleOpenSheet`
blocks an open of a sheet held by another user iff `lockedAt` is set and
less than 30 minutes old (older locks open anyway); the server's lock
and unlock handlers are invariant under arbitrary rewriting of every
`lockedAt` in the store (they read no clock and no `lockedAt`), and a
sheet held by another user stays refused — whatever its `lockedAt` —
until an explicit unlock clears `lockedBy`. -/
theorem lock_expiry_client_only :
    (∀ (s : InventorySheet) (uid now : Int) (holder : LockInfo),
      s.lockedBy = some holder → holder.id ≠ uid →
      (clientBlocksOpen s uid now = true ↔
        ∃ t, s.lockedAt = some t ∧ now - t < staleLockMs)) ∧
    (∀ (f : Option Int → Option Int) (db : List InventoryCycle)
        (botId cycleId sheetId : String) (user : LockInfo),
      lockHandler (mapDbLockedAt f db) botId cycleId sheetId user
        = ((lockHandler db botId cycleId sheetId user).1,
           mapDbLockedAt f (lockHandler db botId cycleId sheetId user).2)) ∧
    (∀ (f : Option Int → Option Int) (db : List InventoryCycle)
        (botId cycleId sheetId : String),
      unlockHandler (mapDbLockedAt f db) botId cycleId sheetId
        = ((unlockHandler db botId cycleId sheetId).1,
           mapDbLockedAt f (unlockHandler db botId cycleId sheetId).2)) ∧
    (∀ (db : List InventoryCycle) (botId cycleId sheetId : String)
        (user : LockInfo) (c : InventoryCycle) (s : InventorySheet)
        (holder : LockInfo),
      findCycle db cycleId botId = some c →
      findSheet c.sheets sheetId = some s →
      s.lockedBy = some holder → holder.id ≠ user.id →
      lockHandler db botId cycleId sheetId user = (.conflict holder, db)) := by
  refine ⟨?_, ?_, ?_, ?_⟩
  · intro s uid now holder hlb hne
    cases hla : s.lockedAt with
    | none => simp [clientBlocksOpen, hlb, hne, hla]
    | some t => simp [clientBlocksOpen, hlb, hne, hla]
  · intro f db botId cycleId sheetId user
    cases hc : findCycle db cycleId botId with
    | none =>
      have hc' : findCycle (mapDbLockedAt f db) cycleId botId = none := by
        rw [findCycle_mapLockedAt, hc]; rfl
      simp [lockHandler, hc, hc']
    | some c =>
      have hc' : findCycle (mapDbLockedAt f db) cycleId botId
          = some (mapCycleLockedAt f c) := by
        rw [findCycle_mapLockedAt, hc]; rfl
      cases hs : findSheet c.sheets sheetId with
      | none =>
        have hs' : findSheet (mapCycleLockedAt f c).sheets sheetId = none := by
          show findSheet (c.sheets.map (mapSheetLockedAt f)) sheetId = none
          rw [findSheet_mapLockedAt, hs]; rfl
        simp [lockHandler, hc, hc', hs, hs']
      | some s =>
        have hs' : findSheet (mapCycleLockedAt f c).sheets sheetId
            = some (mapSheetLockedAt f s) := by
          show findSheet (c.sheets.map (mapSheetLockedAt f)) sheetId = _
          rw [findSheet_mapLockedAt, hs]; rfl
        have hsave : saveCycle (mapDbLockedAt f db) cycleId botId
              { mapCycleLockedAt f c with
                  sheets := setLockedByFirst (mapCycleLockedAt f c).sheets
                    sheetId (some user) }
            = mapDbLockedAt f (saveCycle db cycleId botId
                { c with sheets := setLockedByFirst c.sheets sheetId (some user) }) := by
          show saveCycle (mapDbLockedAt f db) cycleId botId
              { mapCycleLockedAt f c with
                  sheets := setLockedByFirst (c.sheets.map (mapSheetLockedAt f))
                    sheetId (some user) } = _
          rw [setLockedByFirst_mapLockedAt]
          exact saveCycle_mapLockedAt f db cycleId botId
            { c with sheets := setLockedByFirst c.sheets sheetId (some user) }
        cases hlb : s.lockedBy with
        | none =>
          have hlb' : (mapSheetLockedAt f s).lockedBy = none := hlb
          simp only [lockHandler, hc, hc', hs, hs', hlb, hlb']
          rw [hsave]
        | some holder =>
          have hlb' : (mapSheetLockedAt f s).lockedBy = some holder := hlb
          by_cases hid : holder.id = user.id
          · simp only [lockHandler, hc, hc', hs, hs', hlb, hlb', hid, ne_eq,
              not_true_eq_false, ite_false, if_neg, reduceIte]
            rw [hsave]
          · simp [lockHandler, hc, hc', hs, hs', hlb, hlb', hid]
  · intro f db botId cycleId sheetId
    cases hc : findCycle db cycleId botId with
    | none =>
      have hc' : findCycle (mapDbLockedAt f db) cycleId botId = none := by
        rw [findCycle_mapLockedAt, hc]; rfl
      simp [unlockHandler, hc, hc']
    | some c =>
      have hc' : findCycle (mapDbLockedAt f db) cycleId botId
          = some (mapCycleLockedAt f c) := by
        rw [findCycle_mapLockedAt, hc]; rfl
      cases hs : findSheet c.sheets sheetId with
      | none =>
        have hs' : findSheet (mapCycleLockedAt f c).sheets sheetId = none := by
          show findSheet (c.sheets.map (mapSheetLockedAt f)) sheetId = none
          rw [findSheet_mapLockedAt, hs]; rfl
        simp [unlockHandler, hc, hc', hs, hs']
      | some s =>
        have hs' : findSheet (mapCycleLockedAt f c).sheets sheetId
            = some (mapSheetLockedAt f s) := by
          show findSheet (c.sheets.map (mapSheetLockedAt f)) sheetId = _
          rw [findSheet_mapLockedAt, hs]; rfl
        have hsave : saveCycle (mapDbLockedAt f db) cycleId botId
              { mapCycleLockedAt f c with
                  sheets := setLockedByFirst (mapCycleLockedAt f c).sheets
                    sheetId none }
            = mapDbLockedAt f (saveCycle db cycleId botId
                { c with sheets := setLockedByFirst c.sheets sheetId none }) := by
          show saveCycle (mapDbLockedAt f db) cycleId botId
              { mapCycleLockedAt f c with
                  sheets := setLockedByFirst (c.sheets.map (mapSheetLockedAt f))
                    sheetId none } = _
          rw [setLockedByFirst_mapLockedAt]
          exact saveCycle_mapLockedAt f db cycleId botId
            { c with sheets := setLockedByFirst c.sheets sheetId none }
        simp only [unlockHandler, hc, hc', hs, hs']
        rw [hsave]
  · intro db botId cycleId sheetId user c s holder hc hs hlb hne
    simp [lockHandler, hc, hs, hlb, hne]

/-- Witness for `lock_expiry_client_only`: a 29-minute-old foreign lock
blocks the client open; the same sheet 31 minutes stale would not
(shown through the iff applied at concrete inputs). -/
theorem lock_expiry_client_only_witness :
    clientBlocksOpen
      { id := "s1", title := "Bar", items := [], status := "active",
        lockedBy := some { id := 1, name := "A" },
        lockedAt := some 1000000 }
      2 (1000000 + 29 * 60 * 1000) = true ∧
    clientBlocksOpen
      { id := "s1", title := "Bar", items := [], status := "active",
        lockedBy := some { id := 1, name := "A" },
        lockedAt := some 1000000 }
      2 (1000000 + 31 * 60 * 1000) = false := by
  constructor
  · exact (lock_expiry_client_only.1
      { id := "s1", title := "Bar", items := [], status := "active",
        lockedBy := some { id := 1, name := "A" },
        lockedAt := some 1000000 }
      2 (1000000 + 29 * 60 * 1000) { id := 1, name := "A" }
      rfl (by decide)).mpr ⟨1000000, rfl, by decide⟩
  · have h := lock_expiry_client_only.1
      { id := "s1", title := "Bar", items := [], status := "active",
        lockedBy := some { id := 1, name := "A" },
        lockedAt := some 1000000 }
      2 (1000000 + 31 * 60 * 1000) { id := 1, name := "A" }
      rfl (by decide)
    by_contra hb
    simp only [Bool.not_eq_false] at hb
    obtain ⟨t, ht, hlt⟩ := h.mp hb
    simp only [Option.some.injEq] at ht
    subst ht
    revert hlt
    decide

/-!  ### C4: POST /api/inventory/cycle is whole-document last-writer-wins  -/

/-- Handler of `POST /api/inventory/cycle`: `data.botId = req.tenant.botId;
InventoryCycle.findOneAndUpdate({ id: data.id, botId }, data, {upsert:true})`.
The client always posts the complete cycle document, so the update
replaces every stored field. -/
def postCycleHandler (db : List InventoryCycle) (botId : String)
    (body : InventoryCycle) : List InventoryCycle :=
  upsertReplace (fun c => c.id == body.id && c.botId == botId)
    { body with botId := botId } db

theorem find?_upsertReplace {p : α → Bool} {doc : α} (l : List α)
    (hdoc : p doc = true) :
    (upsertReplace p doc l).find? p = some doc := by
  induction l with
  | nil => simp [upsertReplace, List.find?_cons, hdoc]
  | cons x xs ih =>
    cases hx : p x with
    | true => simp [upsertReplace, hx, List.find?_cons, hdoc]
    | false => simp [upsertReplace, hx, List.find?_cons, ih]

/-- **C4.**  The cycle upsert stores the request body (with the tenant's
`botId`) as the document at `(id, tenant)` whatever was stored before —
no merge, no version or timestamp comparison — so after two successive
writes to the same cycle id the stored document is the later body. -/
theorem cycle_post_last_writer_wins :
    (∀ (db : List InventoryCycle) (botId : String) (body : InventoryCycle),
      findCycle (postCycleHandler db botId body) body.id botId
        = some { body with botId := botId }) ∧
    (∀ (db : List InventoryCycle) (botId : String) (b₁ b₂ : InventoryCycle),
      b₁.id = b₂.id →
      findCycle (postCycleHandler (postCycleHandler db botId b₁) botId b₂)
          b₂.id botId
        = some { b₂ with botId := botId }) := by
  have base : ∀ (db : List InventoryCycle) (botId : String)
      (body : InventoryCycle),
      findCycle (postCycleHandler db botId body) body.id botId
        = some { body with botId := botId } := by
    intro db botId body
    unfold findCycle postCycleHandler
    exact find?_upsertReplace db (by simp)
  exact ⟨base, fun db botId b₁ b₂ _ => base (postCycleHandler db botId b₁) botId b₂⟩

/-- Witness for `cycle_post_last_writer_wins`: two writes to the same id,
the second (with different sheets and date) is what remains. -/
theorem cycle_post_last_writer_wins_witness :
    findCycle
      (postCycleHandler
        (postCycleHandler []
          "b" { botId := "x", id := "c1", date := 1, sheets := [],
                isFinalized := false, createdBy := "A" })
        "b" { botId := "y", id := "c1", date := 2, sheets := [],
              isFinalized := true, createdBy := "B" })
      "c1" "b"
      = some { botId := "b", id := "c1", date := 2, sheets := [],
               isFinalized := true, createdBy := "B" } :=
  cycle_post_last_writer_wins.2 []
    "b" { botId := "x", id := "c1", date := 1, sheets := [],
          isFinalized := false, createdBy := "A" }
    { botId := "y", id := "c1", date := 2, sheets := [],
      isFinalized := true, createdBy := "B" } rfl

/-!  ### C5: the lock endpoint is not a mutual-exclusion primitive  -/

/-- The lock handler split at its database boundary: the decision and
the write use the `findOne` snapshot, while the save applies to the
store as it is at write time.  `lockHandler` is exactly this composition
with snapshot and store read at the same instant. -/
def lockCheckThenWrite (snapshot : Option InventoryCycle)
    (db : List InventoryCycle) (botId cycleId sheetId : String)
    (user : LockInfo) : LockResult × List InventoryCycle :=
  match snapshot with
  | none => (.serverError, db)
  | some cycle =>
    match findSheet cycle.sheets sheetId with
    | none => (.notFound, db)
    | some sheet =>
      match sheet.lockedBy with
      | some holder =>
        if holder.id ≠ user.id then (.conflict holder, db)
        else (.ok, saveCycle db cycleId botId
          { cycle with sheets := setLockedByFirst cycle.sheets sheetId (some user) })
      | none => (.ok, saveCycle db cycleId botId
          { cycle with sheets := setLockedByFirst cycle.sheets sheetId (some user) })

/-- **C5.**  `lockHandler` is an unsynchronized read (`findOne`) followed
by a separate write (`save`); interleaving two such requests by distinct
users on a free sheet — both reads before either write — makes both
reads see `lockedBy` unset, both answers `success:true`, and leaves the
second writer as the stored holder. -/
theorem lock_race_both_succeed :
    (∀ (db : List InventoryCycle) (botId cycleId sheetId : String)
        (user : LockInfo),
      lockHandler db botId cycleId sheetId user
        = lockCheckThenWrite (findCycle db cycleId botId) db
            botId cycleId sheetId user) ∧
    (let db0 : List InventoryCycle :=
      [{ botId := "b", id := "c1", date := 0,
         sheets := [{ id := "s1", title := "Kitchen", items := [],
                      status := "active", lockedBy := none, lockedAt := none }],
         isFinalized := false, createdBy := "A" }]
     let alice : LockInfo := { id := 1, name := "Alice" }
     let bob : LockInfo := { id := 2, name := "Bob" }
     let snapA := findCycle db0 "c1" "b"
     let snapB := findCycle db0 "c1" "b"
     let stepA := lockCheckThenWrite snapA db0 "b" "c1" "s1" alice
     let stepB := lockCheckThenWrite snapB stepA.2 "b" "c1" "s1" bob
     alice.id ≠ bob.id ∧
     (snapA.bind (fun c => findSheet c.sheets "s1")).map InventorySheet.lockedBy
       = some none ∧
     (snapB.bind (fun c => findSheet c.sheets "s1")).map InventorySheet.lockedBy
       = some none ∧
     stepA.1 = .ok ∧ stepB.1 = .ok ∧
     (findCycle stepB.2 "c1" "b").bind (fun c => findSheet c.sheets "s1")
       = some { id := "s1", title := "Kitchen", items := [],
                status := "active", lockedBy := some bob, lockedAt := none }) := by
  constructor
  · intro db botId cycleId sheetId user
    cases hc : findCycle db cycleId botId with
    | none => simp [lockHandler, lockCheckThenWrite, hc]
    | some c => simp [lockHandler, lockCheckThenWrite, hc]
  · decide

/-- Witness for `lock_race_both_succeed`: the read/write decomposition
evaluated on a concrete (empty) store. -/
theorem lock_race_both_succeed_witness :
    lockHandler [] "b" "c" "s" { id := 1, name := "A" }
      = lockCheckThenWrite (findCycle [] "c" "b") [] "b" "c" "s"
          { id := 1, name := "A" } :=
  lock_race_both_succeed.1 [] "b" "c" "s" { id := 1, name := "A" }

/-!  ### C3: polling reconciliation and the temporary sync lock  -/

/-- Local state of the `Inventory` component that the reconciliation
logic touches.  `syncLockRef` with its 3-second `setTimeout` is modelled
by the absolute time `syncLockUntil` at which the flag clears. -/
structure ClientState where
  cycles : List InventoryCycle
  activeCycle : Option InventoryCycle
  activeSheetId : Option String
  isSaving : Bool
  isAddingSheet : Bool
  syncLockUntil : Int
deriving DecidableEq, Repr

/-- Value of `syncLockRef.current` at time `now`. -/
def syncLockActive (st : ClientState) (now : Int) : Bool :=
  now < st.syncLockUntil

/-- `lockSyncTemporarily`: sets the flag, scheduling its clearing
3000 ms later. -/
def lockSyncTemporarily (now : Int) (st : ClientState) : ClientState :=
  { st with syncLockUntil := now + syncLockMs }

/-- `loadDataSilent`: the 8-second poll body; bails out untouched when a
save is running, a sheet is being added, or the sync lock is held,
otherwise overwrites `cycles` and `activeCycle` with the server data. -/
def loadDataSilent (now : Int) (server : List InventoryCycle)
    (st : ClientState) : ClientState :=
  if st.isSaving || st.isAddingSheet || syncLockActive st now then st
  else { st with cycles := server,
                 activeCycle := server.find? (fun c => !c.isFinalized) }

/-- `i.id === itemId ? { ...i, actual: … } : i` over a sheet's items. -/
def updateItemActual (itemId : String) (v : Option ℚ)
    (items : List InventoryItem) : List InventoryItem :=
  items.map (fun i => if i.id == itemId then { i with actual := v } else i)

/-- `handleActualSync`: locks the sync first, then (when an active cycle
and sheet are selected and the sheet exists) writes the parsed value
into the matching items.  `parseFloat`/`safeEval` of the typed string is
modelled by the already-parsed `v` (`none` = `NaN`, which leaves `actual`
undefined). -/
def handleActualSync (now : Int) (itemId : String) (v : Option ℚ)
    (st : ClientState) : ClientState :=
  let st1 := lockSyncTemporarily now st
  match st1.activeCycle, st1.activeSheetId with
  | some c, some sid =>
    match findSheet c.sheets sid with
    | some _ =>
      let sheets' := updateFirst (fun s => s.id == sid)
        (fun s => { s with items := updateItemActual itemId v s.items }) c.sheets
      { st1 with activeCycle := some { c with sheets := sheets' } }
    | none => st1
  | _, _ => st1

/-- `handleItemDelete`: bails out before touching the sync lock when no
cycle or sheet is active; otherwise locks the sync and removes the item
from the active sheet. -/
def handleItemDelete (now : Int) (itemId : String) (st : ClientState) :
    ClientState :=
  match st.activeCycle, st.activeSheetId with
  | some c, some sid =>
    let st1 := lockSyncTemporarily now st
    match findSheet c.sheets sid with
    | some _ =>
      let sheets' := updateFirst (fun s => s.id == sid)
        (fun s => { s with items := s.items.filter (fun i => !(i.id == itemId)) })
        c.sheets
      { st1 with activeCycle := some { c with sheets := sheets' } }
    | none => st1
  | _, _ => st

/-- **C3.**  The poll interval is a fixed 8 seconds; `loadDataSilent`
leaves the whole local state untouched whenever the sync lock, a save,
or a sheet-add is active; both the item edit and the item delete set the
sync lock, which clears 3000 ms later; and once it has cleared (no save
or add running) the next poll overwrites `cycles` and `activeCycle` with
the server's data. -/
theorem polling_sync_lock :
    pollIntervalMs = 8000 ∧ syncLockMs = 3000 ∧
    (∀ (now : Int) (server : List InventoryCycle) (st : ClientState),
      (st.isSaving || st.isAddingSheet || syncLockActive st now) = true →
      loadDataSilent now server st = st) ∧
    (∀ (now : Int) (itemId : String) (v : Option ℚ) (st : ClientState),
      (handleActualSync now itemId v st).syncLockUntil = now + syncLockMs) ∧
    (∀ (now : Int) (itemId : String) (st : ClientState)
        (c : InventoryCycle) (sid : String),
      st.activeCycle = some c → st.activeSheetId = some sid →
      (handleItemDelete now itemId st).syncLockUntil = now + syncLockMs) ∧
    (∀ (now : Int) (server : List InventoryCycle) (st : ClientState),
      st.isSaving = false → st.isAddingSheet = false →
      st.syncLockUntil ≤ now →
      (loadDataSilent now server st).cycles = server ∧
      (loadDataSilent now server st).activeCycle
        = server.find? (fun c => !c.isFinalized)) := by
  refine ⟨rfl, rfl, ?_, ?_, ?_, ?_⟩
  · intro now server st hguard
    simp [loadDataSilent, hguard]
  · intro now itemId v st
    rcases st with ⟨cycles, ac, asid, sv, add, slu⟩
    cases ac with
    | none =>
      cases asid with
      | none => rfl
      | some sid => rfl
    | some c =>
      cases asid with
      | none => rfl
      | some sid =>
        cases hf : findSheet c.sheets sid with
        | none => simp [handleActualSync, lockSyncTemporarily, hf]
        | some s => simp [handleActualSync, lockSyncTemporarily, hf]
  · intro now itemId st c sid hac hsid
    rcases st with ⟨cycles, ac, asid, sv, add, slu⟩
    cases hac
    cases hsid
    cases hf : findSheet c.sheets sid with
    | none => simp [handleItemDelete, lockSyncTemporarily, hf]
    | some s => simp [handleItemDelete, lockSyncTemporarily, hf]
  · intro now server st hsv hadd hexp
    have hguard : (st.isSaving || st.isAddingSheet || syncLockActive st now)
        = false := by
      simp [hsv, hadd, syncLockActive]
      omega
    constructor <;> simp [loadDataSilent, hguard]

/-- Witness for `polling_sync_lock`: an edit at t=10000 holds the lock
until 13000, the poll at 13000 (flag cleared) takes the server data. -/
theorem polling_sync_lock_witness :
    ((handleActualSync 10000 "i1" (some 2)
        { cycles := [], activeCycle := none, activeSheetId := none,
          isSaving := false, isAddingSheet := false,
          syncLockUntil := 0 }).syncLockUntil = 10000 + syncLockMs) ∧
    (loadDataSilent 13000 []
        (handleActualSync 10000 "i1" (some 2)
          { cycles := [], activeCycle := none, activeSheetId := none,
            isSaving := false, isAddingSheet := false,
            syncLockUntil := 0 })).cycles = [] := by
  constructor
  · exact polling_sync_lock.2.2.2.1 10000 "i1" (some 2)
      { cycles := [], activeCycle := none, activeSheetId := none,
        isSaving := false, isAddingSheet := false, syncLockUntil := 0 }
  · exact (polling_sync_lock.2.2.2.2.2 13000 []
      (handleActualSync 10000 "i1" (some 2)
        { cycles := [], activeCycle := none, activeSheetId := none,
          isSaving := false, isAddingSheet := false, syncLockUntil := 0 })
      rfl rfl (by decide)).1

/-!  ### C10: finalizing a cycle — archive copy and reset copy  -/

/-- `it.actual !== undefined && it.actual > 0` in `finalizeCycle`. -/
def keepsItem (it : InventoryItem) : Bool :=
  match it.actual with
  | some q => decide (0 < q)
  | none => false

/-- The archive document built by `finalizeCycle`: fresh uuid id,
`isFinalized: true`, `date: Date.now()`, items filtered to positive
counts, then sheets with no remaining item dropped.  (`cleanMongoFields`
only strips `_id`/`__v`, which the embedding does not carry.) -/
def archiveOfCycle (c : InventoryCycle) (freshId : String) (now : Int) :
    InventoryCycle :=
  { c with
      id := freshId,
      isFinalized := true,
      date := now,
      sheets := (c.sheets.map
          (fun s => { s with items := s.items.filter keepsItem })).filter
        (fun s => decide (0 < s.items.length)) }

/-- The reset document built by `finalizeCycle`: same cycle id, every
sheet back to `status: 'active'` with locks cleared and every `actual`
set to `undefined`. -/
def resetOfCycle (c : InventoryCycle) : InventoryCycle :=
  { c with sheets := c.sheets.map (fun s =>
      { s with status := "active", lockedBy := none, lockedAt := none,
               items := s.items.map (fun i => { i with actual := none }) }) }

theorem forall₂_map_self {α β : Type _} {R : α → β → Prop} {f : α → β}
    (l : List α) (h : ∀ x, R x (f x)) : List.Forall₂ R l (l.map f) := by
  induction l with
  | nil => exact List.Forall₂.nil
  | cons x xs ih => exact List.Forall₂.cons (h x) ih

/-- **C10.**  Finalizing produces (a) an archive whose id is the fresh
uuid, finalized, dated now, keeping exactly the items whose `actual` is
defined and strictly positive (items counted as 0 are dropped) and only
the sheets with at least one such item, and (b) a reset copy under the
original cycle id whose sheets are all `active` with `lockedBy` and
`lockedAt` cleared and every item's `actual` undefined. -/
theorem finalize_cycle_spec (c : InventoryCycle) (freshId : String)
    (now : Int) :
    (archiveOfCycle c freshId now).id = freshId ∧
    (archiveOfCycle c freshId now).isFinalized = true ∧
    (archiveOfCycle c freshId now).date = now ∧
    (∀ s' ∈ (archiveOfCycle c freshId now).sheets,
      s'.items ≠ [] ∧ ∀ it ∈ s'.items, ∃ q, it.actual = some q ∧ 0 < q) ∧
    (∀ s ∈ c.sheets, s.items.filter keepsItem ≠ [] →
      { s with items := s.items.filter keepsItem }
        ∈ (archiveOfCycle c freshId now).sheets) ∧
    (∀ s ∈ c.sheets, ∀ it ∈ s.items,
      (it ∈ s.items.filter keepsItem ↔ ∃ q, it.actual = some q ∧ 0 < q)) ∧
    (∀ s ∈ c.sheets, ∀ it ∈ s.items, it.actual = some 0 →
      it ∉ s.items.filter keepsItem) ∧
    (resetOfCycle c).id = c.id ∧
    List.Forall₂
      (fun s s' => s'.id = s.id ∧ s'.title = s.title ∧
        s'.status = "active" ∧ s'.lockedBy = none ∧ s'.lockedAt = none ∧
        List.Forall₂ (fun i i' => i'.id = i.id ∧ i'.name = i.name ∧
          i'.unit = i.unit ∧ i'.code = i.code ∧ i'.actual = none)
          s.items s'.items)
      c.sheets (resetOfCycle c).sheets := by
  have hkeep : ∀ it : InventoryItem,
      keepsItem it = true ↔ ∃ q, it.actual = some q ∧ 0 < q := by
    intro it
    cases ha : it.actual with
    | none => simp [keepsItem, ha]
    | some q => simp [keepsItem, ha]
  refine ⟨rfl, rfl, rfl, ?_, ?_, ?_, ?_, rfl, ?_⟩
  · intro s' hs'
    unfold archiveOfCycle at hs'
    simp only [List.mem_filter, List.mem_map, decide_eq_true_eq] at hs'
    obtain ⟨⟨s, _, rfl⟩, hlen⟩ := hs'
    constructor
    · show s.items.filter keepsItem ≠ []
      intro hnil
      have hlen' : 0 < (s.items.filter keepsItem).length := hlen
      rw [hnil] at hlen'
      exact absurd hlen' (by simp)
    · intro it hit
      simp only [List.mem_filter] at hit
      exact (hkeep it).mp hit.2
  · intro s hs hne
    unfold archiveOfCycle
    simp only [List.mem_filter, List.mem_map, decide_eq_true_eq]
    refine ⟨⟨s, hs, rfl⟩, ?_⟩
    show 0 < (s.items.filter keepsItem).length
    cases hfk : s.items.filter keepsItem with
    | nil => exact absurd hfk hne
    | cons a l => simp
  · intro s _ it hit
    rw [← hkeep it]
    simp [List.mem_filter, hit]
  · intro s _ it hit hzero
    simp only [List.mem_filter, hit, true_and]
    intro hk
    obtain ⟨q, hq, hpos⟩ := (hkeep it).mp hk
    rw [hzero] at hq
    simp only [Option.some.injEq] at hq
    subst hq
    exact absurd hpos (lt_irrefl 0)
  · refine forall₂_map_self c.sheets ?_
    intro s
    refine ⟨rfl, rfl, rfl, rfl, rfl, ?_⟩
    exact forall₂_map_self s.items (fun i => ⟨rfl, rfl, rfl, rfl, rfl⟩)

/-- A sheet counted as 5 kg flour, 0 kg salt, oil left blank. -/
def sampleCountedSheet : InventorySheet :=
  { id := "s1", title := "Kitchen",
    items := [
      { id := "i1", name := "Flour", unit := "kg", code := "F",
        actual := some 5 },
      { id := "i2", name := "Salt", unit := "kg", code := "S",
        actual := some 0 },
      { id := "i3", name := "Oil", unit := "l", code := "O",
        actual := none }],
    status := "submitted", lockedBy := none, lockedAt := none }

/-- A finished cycle holding `sampleCountedSheet`. -/
def sampleCountedCycle : InventoryCycle :=
  { botId := "b", id := "c1", date := 0, sheets := [sampleCountedSheet],
    isFinalized := false, createdBy := "A" }

/-- Witness for `finalize_cycle_spec`: a sheet with counts 5, 0 and
undefined archives exactly the count-5 item. -/
theorem finalize_cycle_spec_witness :
    ({ sampleCountedSheet with
        items := [{ id := "i1", name := "Flour", unit := "kg", code := "F",
                    actual := some 5 }] } : InventorySheet)
      ∈ (archiveOfCycle sampleCountedCycle "fresh" 99).sheets := by
  have h := (finalize_cycle_spec sampleCountedCycle "fresh" 99).2.2.2.2.1
    sampleCountedSheet (by decide) (by decide)
  exact h

/-!  ### C7: tenant resolution  -/

/-- A bot configuration document (`botConfigSchema`). -/
structure BotConfig where
  botId : String
  token : String
  name : String
  ownerId : Int
  createdAt : Int
deriving DecidableEq, Repr

/-- `req.tenant` as set by the middleware. -/
structure Tenant where
  botId : String
  token : String
deriving DecidableEq, Repr

/-- JavaScript `a || d` on an optional string: missing and empty are
falsy. -/
def jsOr (o : Option String) (d : String) : String :=
  match o with
  | some s => if s == "" then d else s
  | none => d

/-- `req.headers['x-bot-id'] || req.query.bot_id || 'default'`. -/
def chooseBotId (hdr qry : Option String) : String :=
  jsOr hdr (jsOr qry "default")

/-- Cache lookup (`botConfigCache.get`) falling back to the database
(`BotConfig.findOne({ botId })`). -/
def lookupConfig (cache db : List BotConfig) (botId : String) :
    Option BotConfig :=
  match cache.find? (fun c => c.botId == botId) with
  | some c => some c
  | none => db.find? (fun c => c.botId == botId)

/-- `resolveTenant` middleware: choose the bot id, look it up in cache
then database; the id `default` falls back to a synthesized config with
`process.env.TELEGRAM_BOT_TOKEN || 'placeholder'`; otherwise a missing
config answers 404 `{error: "Bot not found"}` and the route handler is
never reached (the `Except.error` branch). -/
def resolveTenant (cache db : List BotConfig) (envTok : Option String)
    (hdr qry : Option String) : Except String Tenant :=
  let botId := chooseBotId hdr qry
  match lookupConfig cache db botId with
  | some c => .ok { botId := c.botId, token := c.token }
  | none =>
    if botId == "default" then
      .ok { botId := "default", token := jsOr envTok "placeholder" }
    else .error "Bot not found"

theorem lookupConfig_some_botId {cache db : List BotConfig} {bid : String}
    {c : BotConfig} (h : lookupConfig cache db bid = some c) :
    c.botId = bid := by
  unfold lookupConfig at h
  cases hc : cache.find? (fun x => x.botId == bid) with
  | some x =>
    rw [hc] at h
    cases h
    have := List.find?_some hc
    simpa using this
  | none =>
    rw [hc] at h
    have := List.find?_some h
    simpa using this

/-- **C7.**  The tenant id comes from the `x-bot-id` header, else the
`bot_id` query parameter, else `'default'`; the request is refused with
404 `Bot not found` exactly when no bot config exists for that id and
the id is not `'default'`; a resolved tenant carries exactly the chosen
bot id; and the id `'default'` always resolves. -/
theorem resolve_tenant_spec (cache db : List BotConfig)
    (envTok hdr qry : Option String) :
    (∀ h, hdr = some h → h ≠ "" → chooseBotId hdr qry = h) ∧
    ((hdr = none ∨ hdr = some "") → ∀ q, qry = some q → q ≠ "" →
      chooseBotId hdr qry = q) ∧
    ((hdr = none ∨ hdr = some "") → (qry = none ∨ qry = some "") →
      chooseBotId hdr qry = "default") ∧
    (resolveTenant cache db envTok hdr qry = .error "Bot not found" ↔
      (lookupConfig cache db (chooseBotId hdr qry) = none ∧
        chooseBotId hdr qry ≠ "default")) ∧
    (∀ t, resolveTenant cache db envTok hdr qry = .ok t →
      t.botId = chooseBotId hdr qry) ∧
    (chooseBotId hdr qry = "default" →
      ∃ t, resolveTenant cache db envTok hdr qry = .ok t) := by
  refine ⟨?_, ?_, ?_, ?_, ?_, ?_⟩
  · intro h hh hne
    subst hh
    simp [chooseBotId, jsOr, hne]
  · intro hh q hq hne
    subst hq
    rcases hh with rfl | rfl <;> simp [chooseBotId, jsOr, hne]
  · intro hh hq
    rcases hh with rfl | rfl <;> rcases hq with rfl | rfl <;>
      simp [chooseBotId, jsOr]
  · cases hl : lookupConfig cache db (chooseBotId hdr qry) with
    | some c =>
      simp only [resolveTenant, hl]
      constructor
      · intro h
        cases h
      · rintro ⟨h, _⟩
        cases h
    | none =>
      by_cases hd : chooseBotId hdr qry = "default"
      · have hl' : lookupConfig cache db "default" = none := hd ▸ hl
        simp [resolveTenant, hd, hl', hl]
      · simp [resolveTenant, hl, hd]
  · intro t ht
    cases hl : lookupConfig cache db (chooseBotId hdr qry) with
    | some c =>
      simp only [resolveTenant, hl] at ht
      cases ht
      exact lookupConfig_some_botId hl
    | none =>
      simp only [resolveTenant, hl] at ht
      by_cases hd : chooseBotId hdr qry = "default"
      · rw [if_pos (by simpa using hd)] at ht
        cases ht
        exact hd.symm
      · rw [if_neg (by simpa using hd)] at ht
        cases ht
  · intro hd
    cases hl : lookupConfig cache db (chooseBotId hdr qry) with
    | some c =>
      refine ⟨{ botId := c.botId, token := c.token }, ?_⟩
      simp [resolveTenant, hl]
    | none =>
      refine ⟨{ botId := "default", token := jsOr envTok "placeholder" }, ?_⟩
      have hl' : lookupConfig cache db "default" = none := hd ▸ hl
      simp [resolveTenant, hd, hl', hl]

/-- Witness for `resolve_tenant_spec`: with no configs at all, an
explicit header id is refused with `Bot not found`, while the absent
header and query resolve to the synthesized default tenant. -/
theorem resolve_tenant_spec_witness :
    resolveTenant [] [] none (some "shop7") none = .error "Bot not found" ∧
    ∃ t, resolveTenant [] [] none none none = .ok t := by
  constructor
  · exact (resolve_tenant_spec [] [] none (some "shop7") none).2.2.2.1.mpr
      ⟨rfl, by decide⟩
  · exact (resolve_tenant_spec [] [] none none none).2.2.2.2.2 rfl

/-!  ### C6: per-tenant isolation of the REST routes

The remaining collections of server/index.js.  Untyped `Array` payload
fields (`ingredients`, `steps`, wastage `items`) are inert for every
filter the routes use and are carried as opaque string lists; the
`imageUrls` sub-document of a recipe is likewise inert and elided. -/

/-- A recipe document (`recipeSchema`). -/
structure Recipe where
  botId : String
  id : String
  title : String
  description : String
  imageUrl : String
  videoUrl : String
  category : String
  outputWeight : String
  isFavorite : Bool
  isArchived : Bool
  ingredients : List String
  steps : List String
  createdAt : Int
  lastModified : Int
  lastModifiedBy : String
deriving DecidableEq, Repr

/-- A user document (`userSchema`). -/
structure UserDoc where
  botId : String
  id : Int
  first_name : String
  last_name : String
  username : String
  lastSeen : Int
  isAdmin : Bool
deriving DecidableEq, Repr

/-- A wastage log document (`wastageSchema`). -/
structure WastageLog where
  botId : String
  id : String
  date : Int
  items : List String
  createdBy : String
deriving DecidableEq, Repr

/-- A global inventory item (`globalInventoryItemSchema`). -/
structure GlobalItem where
  botId : String
  code : String
  name : String
  unit : String
deriving DecidableEq, Repr

/-- A settings document (`settingsSchema`). -/
structure AppSettings where
  botId : String
  showInventory : Bool
  showSchedule : Bool
  showWastage : Bool
  showArchive : Bool
deriving DecidableEq, Repr

/-- The tenant-scoped MongoDB collections. -/
structure ServerDb where
  recipes : List Recipe
  users : List UserDoc
  wastage : List WastageLog
  inventory : List InventoryCycle
  globalItems : List GlobalItem
  settings : List AppSettings
deriving DecidableEq, Repr

/-- Stable insertion of `x` before the first `y` with `le x y`. -/
def insertLe (le : α → α → Bool) (x : α) : List α → List α
  | [] => [x]
  | y :: ys => if le x y then x :: y :: ys else y :: insertLe le x ys

/-- Insertion sort, modelling Mongo's `.sort()` on query results. -/
def sortBy (le : α → α → Bool) : List α → List α
  | [] => []
  | x :: xs => insertLe le x (sortBy le xs)

/-- Tenant A's view of each collection: the documents whose `botId` is
the tenant's, in store order. -/
def recipesOf (db : ServerDb) (bid : String) : List Recipe :=
  db.recipes.filter (fun r => r.botId == bid)

def usersOf (db : ServerDb) (bid : String) : List UserDoc :=
  db.users.filter (fun u => u.botId == bid)

def wastageOf (db : ServerDb) (bid : String) : List WastageLog :=
  db.wastage.filter (fun w => w.botId == bid)

def inventoryOf (db : ServerDb) (bid : String) : List InventoryCycle :=
  db.inventory.filter (fun c => c.botId == bid)

def globalItemsOf (db : ServerDb) (bid : String) : List GlobalItem :=
  db.globalItems.filter (fun g => g.botId == bid)

def settingsOf (db : ServerDb) (bid : String) : List AppSettings :=
  db.settings.filter (fun s => s.botId == bid)

/-- `GET /api/recipes`: `Recipe.find({ botId })`. -/
def getRecipes (db : ServerDb) (bid : String) : List Recipe :=
  db.recipes.filter (fun r => r.botId == bid)

/-- `POST /api/recipes`: `data.botId = tenant;
findOneAndUpdate({ id, botId }, data, {upsert:true})`. -/
def postRecipe (db : ServerDb) (bid : String) (body : Recipe) : ServerDb :=
  let recipes' := upsertReplace (fun r => r.id == body.id && r.botId == bid)
    { body with botId := bid } db.recipes
  { db with recipes := recipes' }

/-- `POST /api/recipes/bulk`: `bulkWrite` of one `updateOne` upsert per
posted recipe, each with filter `{ id: r.id, botId }` and update
`{...r, botId}`, applied in order. -/
def postRecipesBulk (db : ServerDb) (bid : String) (bodies : List Recipe) :
    ServerDb :=
  let recipes' := bodies.foldl
    (fun acc r => upsertReplace (fun x => x.id == r.id && x.botId == bid)
      { r with botId := bid } acc)
    db.recipes
  { db with recipes := recipes' }

/-- The `Recipe.findOne({ id: recipeId, botId })` read performed by
`POST /api/share-recipe`.  The handler performs no database write: it
only builds the Telegram caption from this document. -/
def shareRecipeLookup (db : ServerDb) (bid rid : String) : Option Recipe :=
  db.recipes.find? (fun r => r.id == rid && r.botId == bid)

/-- Outcome of `POST /api/share-recipe`: `success:true` when the bot
instance exists and the recipe was found, else 404 `Not found`. -/
def shareRecipeOk (db : ServerDb) (bid rid : String) (botPresent : Bool) :
    Bool :=
  match shareRecipeLookup db bid rid, botPresent with
  | some _, true => true
  | _, _ => false

/-- `GET /api/users`: `User.find({ botId }).sort({ lastSeen: -1 })`. -/
def getUsers (db : ServerDb) (bid : String) : List UserDoc :=
  sortBy (fun a b => decide (b.lastSeen ≤ a.lastSeen))
    (db.users.filter (fun u => u.botId == bid))

/-- `POST /api/sync-user`: upsert of `{...body, botId, lastSeen: now}`
by `{ id, botId }`, answering the written document. -/
def syncUser (db : ServerDb) (bid : String) (body : UserDoc) (now : Int) :
    UserDoc × ServerDb :=
  let doc : UserDoc := { body with botId := bid, lastSeen := now }
  let users' := upsertReplace (fun u => u.id == body.id && u.botId == bid)
    doc db.users
  (doc, { db with users := users' })

/-- `POST /api/users/toggle-admin`:
`findOneAndUpdate({ id: targetId, botId }, { isAdmin: status })` — a
single-field `$set` on the first match, no upsert. -/
def toggleAdmin (db : ServerDb) (bid : String) (targetId : Int)
    (status : Bool) : ServerDb :=
  let users' := updateFirst (fun u => u.id == targetId && u.botId == bid)
    (fun u => { u with isAdmin := status }) db.users
  { db with users := users' }

/-- `GET /api/wastage`: `Wastage.find({ botId }).sort({ date: -1 })`. -/
def getWastage (db : ServerDb) (bid : String) : List WastageLog :=
  sortBy (fun a b => decide (b.date ≤ a.date))
    (db.wastage.filter (fun w => w.botId == bid))

/-- `POST /api/wastage`: `log.botId = tenant; Wastage.create(log)`. -/
def postWastage (db : ServerDb) (bid : String) (body : WastageLog) : ServerDb :=
  { db with wastage := db.wastage ++ [{ body with botId := bid }] }

/-- `DELETE /api/wastage/:id`: `deleteOne({ id, botId })`. -/
def deleteWastage (db : ServerDb) (bid : String) (wid : String) : ServerDb :=
  let wastage' := eraseFirst (fun w => w.id == wid && w.botId == bid) db.wastage
  { db with wastage := wastage' }

/-- `GET /api/inventory`: `find({ botId }).sort({ date: -1 })`. -/
def getInventory (db : ServerDb) (bid : String) : List InventoryCycle :=
  sortBy (fun a b => decide (b.date ≤ a.date))
    (db.inventory.filter (fun c => c.botId == bid))

/-- `POST /api/inventory/cycle` lifted to the whole store. -/
def postCycleRoute (db : ServerDb) (bid : String) (body : InventoryCycle) :
    ServerDb :=
  { db with inventory := postCycleHandler db.inventory bid body }

/-- `GET /api/inventory/global-items`: `find({ botId }).sort({ name: 1 })`. -/
def getGlobalItems (db : ServerDb) (bid : String) : List GlobalItem :=
  sortBy (fun a b => !(compare a.name b.name == Ordering.gt))
    (db.globalItems.filter (fun g => g.botId == bid))

/-- `POST /api/inventory/global-items/upsert`: a loop of
`findOneAndUpdate({ code, botId }, {...item, botId}, {upsert:true})`. -/
def upsertGlobalItems (db : ServerDb) (bid : String)
    (items : List GlobalItem) : ServerDb :=
  let gi' := items.foldl
    (fun acc it => upsertReplace (fun g => g.code == it.code && g.botId == bid)
      { it with botId := bid } acc)
    db.globalItems
  { db with globalItems := gi' }

/-- The schema defaults used when `GET /api/settings` creates the
tenant's document. -/
def defaultSettings (bid : String) : AppSettings :=
  { botId := bid, showInventory := true, showSchedule := true,
    showWastage := true, showArchive := true }

/-- `GET /api/settings`: `findOne({ botId })`, creating the defaults on
first access. -/
def getSettings (db : ServerDb) (bid : String) : AppSettings × ServerDb :=
  match db.settings.find? (fun s => s.botId == bid) with
  | some s => (s, db)
  | none =>
    let settings' := db.settings ++ [defaultSettings bid]
    (defaultSettings bid, { db with settings := settings' })

/-- `POST /api/settings`: body stripped of `botId`, upserted under the
tenant's filter `{ botId }`. -/
def postSettings (db : ServerDb) (bid : String) (body : AppSettings) :
    ServerDb :=
  let settings' := upsertReplace (fun s => s.botId == bid)
    { body with botId := bid } db.settings
  { db with settings := settings' }

/-- `DELETE /api/inventory/archive/all`:
`deleteMany({ botId, isFinalized: true })`. -/
def deleteArchivedCycles (db : ServerDb) (bid : String) : ServerDb :=
  let inv' := db.inventory.filter (fun c => !(c.botId == bid && c.isFinalized))
  { db with inventory := inv' }

/-- `POST /api/inventory/lock` lifted to the whole store. -/
def lockRoute (db : ServerDb) (bid cid sid : String) (u : LockInfo) :
    LockResult × ServerDb :=
  let r := lockHandler db.inventory bid cid sid u
  (r.1, { db with inventory := r.2 })

/-- `POST /api/inventory/unlock` lifted to the whole store. -/
def unlockRoute (db : ServerDb) (bid cid sid : String) :
    Bool × ServerDb :=
  let r := unlockHandler db.inventory bid cid sid
  (r.1, { db with inventory := r.2 })

section IsolationLemmas

variable {α : Type _}

theorem mem_insertLe {le : α → α → Bool} {x a : α} {l : List α} :
    a ∈ insertLe le x l ↔ a = x ∨ a ∈ l := by
  induction l with
  | nil => simp [insertLe]
  | cons y ys ih =>
    cases h : le x y with
    | true => simp [insertLe, h]
    | false =>
      simp only [insertLe, h, Bool.false_eq_true, if_false, List.mem_cons, ih]
      tauto

theorem mem_sortBy {le : α → α → Bool} {a : α} {l : List α} :
    a ∈ sortBy le l ↔ a ∈ l := by
  induction l with
  | nil => simp [sortBy]
  | cons x xs ih => simp [sortBy, mem_insertLe, ih]

theorem filter_upsertReplace_ne {bot : α → String} {p : α → Bool} {doc : α}
    {bid b' : String} (l : List α)
    (hp : ∀ x, p x = true → bot x = bid) (hdoc : bot doc = bid)
    (hne : b' ≠ bid) :
    (upsertReplace p doc l).filter (fun x => bot x == b')
      = l.filter (fun x => bot x == b') := by
  have hdocb : (bot doc == b') = false := by
    rw [hdoc]; exact beq_eq_false_iff_ne.mpr (Ne.symm hne)
  induction l with
  | nil => simp [upsertReplace, List.filter_cons, hdocb]
  | cons x xs ih =>
    cases hx : p x with
    | true =>
      have hxb : (bot x == b') = false := by
        rw [hp x hx]; exact beq_eq_false_iff_ne.mpr (Ne.symm hne)
      simp [upsertReplace, hx, List.filter_cons, hdocb, hxb]
    | false => simp [upsertReplace, hx, List.filter_cons, ih]

theorem filter_updateFirst_ne {bot : α → String} {p : α → Bool} {f : α → α}
    {bid b' : String} (l : List α)
    (hp : ∀ x, p x = true → bot x = bid ∧ bot (f x) = bid)
    (hne : b' ≠ bid) :
    (updateFirst p f l).filter (fun x => bot x == b')
      = l.filter (fun x => bot x == b') := by
  induction l with
  | nil => rfl
  | cons x xs ih =>
    cases hx : p x with
    | true =>
      have hxb : (bot x == b') = false := by
        rw [(hp x hx).1]; exact beq_eq_false_iff_ne.mpr (Ne.symm hne)
      have hfxb : (bot (f x) == b') = false := by
        rw [(hp x hx).2]; exact beq_eq_false_iff_ne.mpr (Ne.symm hne)
      simp [updateFirst, hx, List.filter_cons, hxb, hfxb]
    | false => simp [updateFirst, hx, List.filter_cons, ih]

theorem filter_eraseFirst_ne {bot : α → String} {p : α → Bool}
    {bid b' : String} (l : List α)
    (hp : ∀ x, p x = true → bot x = bid) (hne : b' ≠ bid) :
    (eraseFirst p l).filter (fun x => bot x == b')
      = l.filter (fun x => bot x == b') := by
  induction l with
  | nil => rfl
  | cons x xs ih =>
    cases hx : p x with
    | true =>
      have hxb : (bot x == b') = false := by
        rw [hp x hx]; exact beq_eq_false_iff_ne.mpr (Ne.symm hne)
      simp [eraseFirst, hx, List.filter_cons, hxb]
    | false => simp [eraseFirst, hx, List.filter_cons, ih]

theorem filter_append_single_ne {bot : α → String} {doc : α}
    {bid b' : String} (l : List α) (hdoc : bot doc = bid) (hne : b' ≠ bid) :
    (l ++ [doc]).filter (fun x => bot x == b')
      = l.filter (fun x => bot x == b') := by
  have hdocb : (bot doc == b') = false := by
    rw [hdoc]; exact beq_eq_false_iff_ne.mpr (Ne.symm hne)
  simp [List.filter_append, List.filter_cons, hdocb]

theorem filter_filter_of_false_bot {bot : α → String} {q : α → Bool}
    {bid b' : String} (l : List α)
    (hq : ∀ x, q x = false → bot x = bid) (hne : b' ≠ bid) :
    (l.filter q).filter (fun x => bot x == b')
      = l.filter (fun x => bot x == b') := by
  induction l with
  | nil => rfl
  | cons x xs ih =>
    cases hx : q x with
    | true =>
      simp only [List.filter_cons, hx, if_true, reduceIte]
      rw [ih]
    | false =>
      have hxb : (bot x == b') = false := by
        rw [hq x hx]; exact beq_eq_false_iff_ne.mpr (Ne.symm hne)
      simp [List.filter_cons, hx, hxb, ih]

theorem find?_and_filter (a b : α → Bool) (l : List α) :
    l.find? (fun x => a x && b x) = (l.filter b).find? a := by
  induction l with
  | nil => rfl
  | cons x xs ih =>
    cases hb : b x with
    | true =>
      cases ha : a x with
      | true => simp [List.find?_cons, List.filter_cons, hb, ha]
      | false => simp [List.find?_cons, List.filter_cons, hb, ha, ih]
    | false =>
      have hab : (a x && b x) = false := by rw [hb, Bool.and_false]
      simp [List.find?_cons, List.filter_cons, hb, hab, ih]

theorem find?_eq_head?_filter (p : α → Bool) (l : List α) :
    l.find? p = (l.filter p).head? := by
  induction l with
  | nil => rfl
  | cons x xs ih =>
    cases hx : p x with
    | true => simp [List.find?_cons, List.filter_cons, hx]
    | false =>
      rw [List.find?_cons, List.filter_cons, hx]
      simp only [Bool.false_eq_true, if_false, reduceIte]
      exact ih

/-- The lock answer depends only on the `findOne` result. -/
theorem lockHandler_fst_congr (db₁ db₂ : List InventoryCycle)
    (bid cid sid : String) (u : LockInfo)
    (h : findCycle db₁ cid bid = findCycle db₂ cid bid) :
    (lockHandler db₁ bid cid sid u).1 = (lockHandler db₂ bid cid sid u).1 := by
  cases hc : findCycle db₂ cid bid with
  | none => simp [lockHandler, hc, h.trans hc]
  | some c =>
    cases hs : findSheet c.sheets sid with
    | none => simp [lockHandler, hc, h.trans hc, hs]
    | some s =>
      cases hlb : s.lockedBy with
      | none => simp [lockHandler, hc, h.trans hc, hs, hlb]
      | some holder =>
        by_cases hid : holder.id = u.id <;>
          simp [lockHandler, hc, h.trans hc, hs, hlb, hid]

/-- The lock write never touches another tenant's cycles. -/
theorem filter_lockHandler_state (inv : List InventoryCycle)
    (bid cid sid : String) (u : LockInfo) {b' : String} (hne : b' ≠ bid) :
    (lockHandler inv bid cid sid u).2.filter (fun c => c.botId == b')
      = inv.filter (fun c => c.botId == b') := by
  cases hc : findCycle inv cid bid with
  | none => simp [lockHandler, hc]
  | some cycle =>
    have hcb : cycle.botId = bid := by
      have := List.find?_some
        (show List.find? (fun d => d.id == cid && d.botId == bid) inv
            = some cycle from hc)
      simp only [Bool.and_eq_true, beq_iff_eq] at this
      exact this.2
    have hsave : ∀ c' : InventoryCycle, c'.botId = bid →
        (saveCycle inv cid bid c').filter (fun c => c.botId == b')
          = inv.filter (fun c => c.botId == b') := by
      intro c' hcb'
      refine filter_updateFirst_ne inv (fun x hx => ⟨?_, hcb'⟩) hne
      simp only [Bool.and_eq_true, beq_iff_eq] at hx
      exact hx.2
    cases hs : findSheet cycle.sheets sid with
    | none => simp [lockHandler, hc, hs]
    | some s =>
      cases hlb : s.lockedBy with
      | none =>
        simp only [lockHandler, hc, hs, hlb]
        exact hsave _ hcb
      | some holder =>
        by_cases hid : holder.id = u.id
        · simp only [lockHandler, hc, hs, hlb, hid, ne_eq, not_true_eq_false,
            ite_false, reduceIte]
          exact hsave _ hcb
        · simp [lockHandler, hc, hs, hlb, hid]

/-- The unlock write never touches another tenant's cycles. -/
theorem filter_unlockHandler_state (inv : List InventoryCycle)
    (bid cid sid : String) {b' : String} (hne : b' ≠ bid) :
    (unlockHandler inv bid cid sid).2.filter (fun c => c.botId == b')
      = inv.filter (fun c => c.botId == b') := by
  cases hc : findCycle inv cid bid with
  | none => simp [unlockHandler, hc]
  | some cycle =>
    have hcb : cycle.botId = bid := by
      have := List.find?_some
        (show List.find? (fun d => d.id == cid && d.botId == bid) inv
            = some cycle from hc)
      simp only [Bool.and_eq_true, beq_iff_eq] at this
      exact this.2
    cases hs : findSheet cycle.sheets sid with
    | none => simp [unlockHandler, hc, hs]
    | some s =>
      simp only [unlockHandler, hc, hs]
      refine filter_updateFirst_ne inv (fun x hx => ⟨?_, hcb⟩) hne
      simp only [Bool.and_eq_true, beq_iff_eq] at hx
      exact hx.2

end IsolationLemmas

/-- **C6.**  Tenant isolation of every tenant-scoped route over the six
collections — recipes (`GET`/`POST /api/recipes`,
`POST /api/recipes/bulk`, the `POST /api/share-recipe` read), users
(`GET /api/users`, `POST /api/sync-user`, `POST /api/users/toggle-admin`),
wastage (`GET`/`POST`/`DELETE /api/wastage`), inventory cycles
(`GET /api/inventory`, `POST .../cycle`, `POST .../lock`,
`POST .../unlock`, `DELETE .../archive/all`), global items
(`GET`/`POST .../global-items`) and settings (`GET`/`POST /api/settings`):
every read returns only documents carrying the requesting tenant's
`botId` and is a function of that tenant's own documents alone (so one
tenant's response is independent of any other tenant's documents), and
every write leaves every other tenant's documents exactly as they were. -/
theorem tenant_isolation :
    (∀ (db : ServerDb) (bid : String) (r : Recipe),
      r ∈ getRecipes db bid → r.botId = bid) ∧
    (∀ (db : ServerDb) (bid rid : String) (r : Recipe),
      shareRecipeLookup db bid rid = some r → r.botId = bid) ∧
    (∀ (db : ServerDb) (bid : String) (u : UserDoc),
      u ∈ getUsers db bid → u.botId = bid) ∧
    (∀ (db : ServerDb) (bid : String) (w : WastageLog),
      w ∈ getWastage db bid → w.botId = bid) ∧
    (∀ (db : ServerDb) (bid : String) (c : InventoryCycle),
      c ∈ getInventory db bid → c.botId = bid) ∧
    (∀ (db : ServerDb) (bid : String) (g : GlobalItem),
      g ∈ getGlobalItems db bid → g.botId = bid) ∧
    (∀ (db : ServerDb) (bid : String), (getSettings db bid).1.botId = bid) ∧
    (∀ (db₁ db₂ : ServerDb) (bid : String),
      recipesOf db₁ bid = recipesOf db₂ bid →
      getRecipes db₁ bid = getRecipes db₂ bid) ∧
    (∀ (db₁ db₂ : ServerDb) (bid : String),
      usersOf db₁ bid = usersOf db₂ bid →
      getUsers db₁ bid = getUsers db₂ bid) ∧
    (∀ (db₁ db₂ : ServerDb) (bid : String),
      wastageOf db₁ bid = wastageOf db₂ bid →
      getWastage db₁ bid = getWastage db₂ bid) ∧
    (∀ (db₁ db₂ : ServerDb) (bid : String),
      inventoryOf db₁ bid = inventoryOf db₂ bid →
      getInventory db₁ bid = getInventory db₂ bid) ∧
    (∀ (db₁ db₂ : ServerDb) (bid : String),
      globalItemsOf db₁ bid = globalItemsOf db₂ bid →
      getGlobalItems db₁ bid = getGlobalItems db₂ bid) ∧
    (∀ (db₁ db₂ : ServerDb) (bid : String),
      settingsOf db₁ bid = settingsOf db₂ bid →
      (getSettings db₁ bid).1 = (getSettings db₂ bid).1) ∧
    (∀ (db₁ db₂ : ServerDb) (bid cid sid : String) (u : LockInfo),
      inventoryOf db₁ bid = inventoryOf db₂ bid →
      (lockRoute db₁ bid cid sid u).1 = (lockRoute db₂ bid cid sid u).1) ∧
    (∀ (db₁ db₂ : ServerDb) (bid rid : String),
      recipesOf db₁ bid = recipesOf db₂ bid →
      shareRecipeLookup db₁ bid rid = shareRecipeLookup db₂ bid rid) ∧
    (∀ (db₁ db₂ : ServerDb) (bid rid : String) (botPresent : Bool),
      recipesOf db₁ bid = recipesOf db₂ bid →
      shareRecipeOk db₁ bid rid botPresent
        = shareRecipeOk db₂ bid rid botPresent) ∧
    (∀ (db : ServerDb) (bid : String) (body : Recipe) (b' : String),
      b' ≠ bid → recipesOf (postRecipe db bid body) b' = recipesOf db b') ∧
    (∀ (db : ServerDb) (bid : String) (bodies : List Recipe) (b' : String),
      b' ≠ bid →
      recipesOf (postRecipesBulk db bid bodies) b' = recipesOf db b') ∧
    (∀ (db : ServerDb) (bid : String) (body : UserDoc) (now : Int)
        (b' : String), b' ≠ bid →
      usersOf (syncUser db bid body now).2 b' = usersOf db b') ∧
    (∀ (db : ServerDb) (bid : String) (targetId : Int) (status : Bool)
        (b' : String), b' ≠ bid →
      usersOf (toggleAdmin db bid targetId status) b' = usersOf db b') ∧
    (∀ (db : ServerDb) (bid : String) (body : WastageLog) (b' : String),
      b' ≠ bid → wastageOf (postWastage db bid body) b' = wastageOf db b') ∧
    (∀ (db : ServerDb) (bid wid b' : String),
      b' ≠ bid → wastageOf (deleteWastage db bid wid) b' = wastageOf db b') ∧
    (∀ (db : ServerDb) (bid : String) (body : InventoryCycle) (b' : String),
      b' ≠ bid →
      inventoryOf (postCycleRoute db bid body) b' = inventoryOf db b') ∧
    (∀ (db : ServerDb) (bid : String) (items : List GlobalItem)
        (b' : String), b' ≠ bid →
      globalItemsOf (upsertGlobalItems db bid items) b'
        = globalItemsOf db b') ∧
    (∀ (db : ServerDb) (bid b' : String), b' ≠ bid →
      settingsOf (getSettings db bid).2 b' = settingsOf db b') ∧
    (∀ (db : ServerDb) (bid : String) (body : AppSettings) (b' : String),
      b' ≠ bid → settingsOf (postSettings db bid body) b' = settingsOf db b') ∧
    (∀ (db : ServerDb) (bid b' : String), b' ≠ bid →
      inventoryOf (deleteArchivedCycles db bid) b' = inventoryOf db b') ∧
    (∀ (db : ServerDb) (bid cid sid : String) (u : LockInfo) (b' : String),
      b' ≠ bid →
      inventoryOf (lockRoute db bid cid sid u).2 b' = inventoryOf db b') ∧
    (∀ (db : ServerDb) (bid cid sid b' : String), b' ≠ bid →
      inventoryOf (unlockRoute db bid cid sid).2 b' = inventoryOf db b') := by
  refine ⟨?_, ?_, ?_, ?_, ?_, ?_, ?_, ?_, ?_, ?_, ?_, ?_, ?_, ?_, ?_, ?_,
    ?_, ?_, ?_, ?_, ?_, ?_, ?_, ?_, ?_, ?_, ?_, ?_, ?_⟩
  · intro db bid r hr
    simp only [getRecipes, List.mem_filter, beq_iff_eq] at hr
    exact hr.2
  · intro db bid rid r hr
    have hb := List.find?_some
      (show List.find? (fun x => x.id == rid && x.botId == bid) db.recipes
          = some r from hr)
    simp only [Bool.and_eq_true, beq_iff_eq] at hb
    exact hb.2
  · intro db bid u hu
    simp only [getUsers, mem_sortBy, List.mem_filter, beq_iff_eq] at hu
    exact hu.2
  · intro db bid w hw
    simp only [getWastage, mem_sortBy, List.mem_filter, beq_iff_eq] at hw
    exact hw.2
  · intro db bid c hc
    simp only [getInventory, mem_sortBy, List.mem_filter, beq_iff_eq] at hc
    exact hc.2
  · intro db bid g hg
    simp only [getGlobalItems, mem_sortBy, List.mem_filter, beq_iff_eq] at hg
    exact hg.2
  · intro db bid
    cases hf : db.settings.find? (fun s => s.botId == bid) with
    | some s =>
      have hb := List.find?_some hf
      simp only [beq_iff_eq] at hb
      simp [getSettings, hf, hb]
    | none => simp [getSettings, hf, defaultSettings]
  · intro db₁ db₂ bid h
    exact h
  · intro db₁ db₂ bid h
    exact congrArg (sortBy (fun a b => decide (b.lastSeen ≤ a.lastSeen))) h
  · intro db₁ db₂ bid h
    exact congrArg (sortBy (fun a b => decide (b.date ≤ a.date))) h
  · intro db₁ db₂ bid h
    exact congrArg (sortBy (fun a b => decide (b.date ≤ a.date))) h
  · intro db₁ db₂ bid h
    exact congrArg
      (sortBy (fun a b => !(compare a.name b.name == Ordering.gt))) h
  · intro db₁ db₂ bid h
    have heq : db₁.settings.find? (fun s => s.botId == bid)
        = db₂.settings.find? (fun s => s.botId == bid) := by
      rw [find?_eq_head?_filter, find?_eq_head?_filter]
      exact congrArg List.head? h
    cases hf : db₂.settings.find? (fun s => s.botId == bid) with
    | some s => simp [getSettings, heq.trans hf, hf]
    | none => simp [getSettings, heq.trans hf, hf]
  · intro db₁ db₂ bid cid sid u h
    have heq : findCycle db₁.inventory cid bid
        = findCycle db₂.inventory cid bid := by
      unfold findCycle
      rw [find?_and_filter, find?_and_filter]
      exact congrArg (List.find? (fun c => c.id == cid)) h
    exact lockHandler_fst_congr _ _ _ _ _ _ heq
  · intro db₁ db₂ bid rid h
    unfold shareRecipeLookup
    rw [find?_and_filter, find?_and_filter]
    exact congrArg (List.find? (fun r => r.id == rid)) h
  · intro db₁ db₂ bid rid botPresent h
    have hl : shareRecipeLookup db₁ bid rid = shareRecipeLookup db₂ bid rid := by
      unfold shareRecipeLookup
      rw [find?_and_filter, find?_and_filter]
      exact congrArg (List.find? (fun r => r.id == rid)) h
    unfold shareRecipeOk
    rw [hl]
  · intro db bid body b' hne
    refine filter_upsertReplace_ne db.recipes (fun x hx => ?_) rfl hne
    simp only [Bool.and_eq_true, beq_iff_eq] at hx
    exact hx.2
  · intro db bid bodies b' hne
    have haux : ∀ (bs : List Recipe) (acc : List Recipe),
        (bs.foldl (fun acc r => upsertReplace
            (fun x => x.id == r.id && x.botId == bid)
            { r with botId := bid } acc) acc).filter
          (fun x => x.botId == b')
          = acc.filter (fun x => x.botId == b') := by
      intro bs
      induction bs with
      | nil => intro acc; rfl
      | cons r rest ih =>
        intro acc
        rw [List.foldl_cons, ih]
        refine filter_upsertReplace_ne acc (fun x hx => ?_) rfl hne
        simp only [Bool.and_eq_true, beq_iff_eq] at hx
        exact hx.2
    exact haux bodies db.recipes
  · intro db bid body now b' hne
    refine filter_upsertReplace_ne db.users (fun x hx => ?_) rfl hne
    simp only [Bool.and_eq_true, beq_iff_eq] at hx
    exact hx.2
  · intro db bid targetId status b' hne
    refine filter_updateFirst_ne db.users (fun x hx => ?_) hne
    simp only [Bool.and_eq_true, beq_iff_eq] at hx
    exact ⟨hx.2, hx.2⟩
  · intro db bid body b' hne
    exact filter_append_single_ne db.wastage rfl hne
  · intro db bid wid b' hne
    refine filter_eraseFirst_ne db.wastage (fun x hx => ?_) hne
    simp only [Bool.and_eq_true, beq_iff_eq] at hx
    exact hx.2
  · intro db bid body b' hne
    refine filter_upsertReplace_ne db.inventory (fun x hx => ?_) rfl hne
    simp only [Bool.and_eq_true, beq_iff_eq] at hx
    exact hx.2
  · intro db bid items b' hne
    have haux : ∀ (its : List GlobalItem) (acc : List GlobalItem),
        (its.foldl (fun acc it => upsertReplace
            (fun g => g.code == it.code && g.botId == bid)
            { it with botId := bid } acc) acc).filter
          (fun g => g.botId == b')
          = acc.filter (fun g => g.botId == b') := by
      intro its
      induction its with
      | nil => intro acc; rfl
      | cons it rest ih =>
        intro acc
        rw [List.foldl_cons, ih]
        refine filter_upsertReplace_ne acc (fun x hx => ?_) rfl hne
        simp only [Bool.and_eq_true, beq_iff_eq] at hx
        exact hx.2
    exact haux items db.globalItems
  · intro db bid b' hne
    cases hf : db.settings.find? (fun s => s.botId == bid) with
    | some s => simp [settingsOf, getSettings, hf]
    | none =>
      simp only [settingsOf, getSettings, hf]
      exact filter_append_single_ne db.settings rfl hne
  · intro db bid body b' hne
    refine filter_upsertReplace_ne db.settings (fun x hx => ?_) rfl hne
    simpa using hx
  · intro db bid b' hne
    refine filter_filter_of_false_bot db.inventory (fun x hx => ?_) hne
    have hx' : (x.botId == bid && x.isFinalized) = true := by
      cases h2 : (x.botId == bid && x.isFinalized) with
      | true => rfl
      | false => rw [h2] at hx; simp at hx
    simp only [Bool.and_eq_true, beq_iff_eq] at hx'
    exact hx'.1
  · intro db bid cid sid u b' hne
    exact filter_lockHandler_state db.inventory bid cid sid u hne
  · intro db bid cid sid b' hne
    exact filter_unlockHandler_state db.inventory bid cid sid hne

/-- Witness for `tenant_isolation`: tenant A's recipe write and lock
request leave tenant B's recipe and inventory views of a concrete store
unchanged, and B's recipe read is unaffected by A's write. -/
theorem tenant_isolation_witness :
    (recipesOf
        (postRecipe
          { recipes := [], users := [], wastage := [], inventory := [],
            globalItems := [], settings := [] } "A"
          { botId := "zzz", id := "r1", title := "Borscht",
            description := "", imageUrl := "", videoUrl := "",
            category := "soup", outputWeight := "", isFavorite := false,
            isArchived := false, ingredients := [], steps := [],
            createdAt := 0, lastModified := 0, lastModifiedBy := "A" })
        "B"
      = recipesOf
          { recipes := [], users := [], wastage := [], inventory := [],
            globalItems := [], settings := [] } "B") ∧
    (getSettings
        { recipes := [], users := [], wastage := [], inventory := [],
          globalItems := [], settings := [] } "A").1.botId = "A" := by
  obtain ⟨m1, mshare, m2, m3, m4, m5, m6, n1, n2, n3, n4, n5, n6, n7,
    n8, n9, p1, pbulk, p2, ptoggle, p3, p4, p5, p6, p7, p8, p9, p10,
    p11⟩ := tenant_isolation
  exact ⟨p1 _ "A" _ "B" (by decide), m6 _ "A"⟩

end ChefDeck
